import Mathlib

/-!
Verification of the tetherback partition-backup pipeline: a shallow
embedding of `tetherback/tetherback.py`, `tetherback/adb_stuff.py` and the
relevant slice of `tetherback/adb_wrapper.py`, with theorems settling the
behavioural claims about partition inventory, backup planning, transport
selection, mount/unmount/port management and stream verification.
-/

namespace Tetherback

/-! ### Python string primitives

The adb wrapper runs commands with `universal_newlines=True`, so captured
text has `\n` line endings; the Python string methods used by the code
(`splitlines`, `split`, `strip`, `lower`, `int(...)`) are modelled here. -/

/-- Characters Python treats as whitespace for `str.split()` / `str.strip()`. -/
def isPySpace (c : Char) : Bool :=
  c = ' ' || c = '\t' || c = '\n' || c = '\r' || c = '\x0b' || c = '\x0c'

/-- Split a character list at every character satisfying `p`, keeping empty
pieces (so `n` separators produce `n+1` pieces). -/
def splitOnPred (p : Char → Bool) : List Char → List (List Char)
  | [] => [[]]
  | c :: cs =>
    let r := splitOnPred p cs
    if p c then [] :: r
    else
      match r with
      | h :: t => (c :: h) :: t
      | [] => [[c]]

/-- Python `str.strip()`. -/
def pyStrip (s : String) : String :=
  ⟨((s.data.dropWhile isPySpace).reverse.dropWhile isPySpace).reverse⟩

/-- Python `str.split()` with no arguments: split on whitespace runs,
dropping empty fields. -/
def pySplit (s : String) : List String :=
  ((splitOnPred isPySpace s.data).filter (fun cs => cs ≠ [])).map
    (fun cs => (⟨cs⟩ : String))

/-- Python `str.splitlines()` on `\n`-normalized text (the adb wrapper
captures with `universal_newlines=True`): a trailing newline does not
produce a final empty line. -/
def splitlines (s : String) : List String :=
  let parts := (splitOnPred (fun c => c = '\n') s.data).map (fun cs => (⟨cs⟩ : String))
  if parts.getLast? = some "" then parts.dropLast else parts

/-- Python `l.split('=', 1)` for a separator known to occur: the part
before the first `=` and everything after it. -/
def splitEqOnce (l : String) : String × String :=
  let k := l.data.takeWhile (fun c => c ≠ '=')
  (⟨k⟩, ⟨l.data.drop (k.length + 1)⟩)

/-- Whether the character occurs in the string (Python `c in l`). -/
def strContains (s : String) (c : Char) : Bool := s.data.contains c

/-- Python `str.lower()` (ASCII suffices for partition names). -/
def strLower (s : String) : String := ⟨s.data.map Char.toLower⟩

/-- Python `str.startswith(pre)`. -/
def strStartsWith (s pre : String) : Bool := pre.data.isPrefixOf s.data

/-- Python `''.join(parts)`. -/
def strJoin (parts : List String) : String := parts.foldl (fun a b => a ++ b) ""

/-- Value of a nonempty decimal digit run. -/
def digitsToNat (cs : List Char) : Nat := cs.foldl (fun n c => n * 10 + (c.toNat - 48)) 0

/-- Python `int(s)` on a string: surrounding whitespace allowed, optional
sign, then a nonempty digit run; anything else raises `ValueError` (none). -/
def pyInt (s : String) : Option Int :=
  match (pyStrip s).data with
  | [] => none
  | c :: rest =>
    let sd : Bool × List Char :=
      if c = '-' then (true, rest)
      else if c = '+' then (false, rest)
      else (false, c :: rest)
    if sd.2 ≠ [] ∧ sd.2.all Char.isDigit then
      some (if sd.1 then -(digitsToNat sd.2 : Int) else (digitsToNat sd.2 : Int))
    else none

/-! ### Dictionaries

Python `dict` / `collections.OrderedDict` assignment `d[k] = v` keeps the
position of an existing key and updates its value, otherwise appends; both
are modelled as association lists with `odictInsert`. -/

/-- `d[k] = v` on a (ordered) dictionary represented as an association
list: update in place if the key is present, else append. -/
def odictInsert {α : Type} : List (String × α) → String → α → List (String × α)
  | [], k, v => [(k, v)]
  | kv :: rest, k, v => if kv.1 = k then (k, v) :: rest else kv :: odictInsert rest k v

/-- Dictionary lookup `d[k]` / `d.get(k)`: value of the first (and, for
dictionaries built with `odictInsert`, only) entry with key `k`. -/
def dlookup {α : Type} : List (String × α) → String → Option α
  | [], _ => none
  | kv :: rest, k => if kv.1 = k then some kv.2 else dlookup rest k

/-- Keys of a dictionary. -/
def dkeys {α : Type} (m : List (String × α)) : List String := m.map (fun kv => kv.1)

/-! ### Partition inventory builder

Embedding of `uevent_dict` / `fstab_dict` (`adb_stuff.py` lines 48-74) and
`build_partmap` (`tetherback.py` lines 119-150).  The device is an oracle
giving the text each `adb shell cat ...` query returns; each parser also
returns the list of lines it warned about, and `build_partmap` returns the
list of partition indices it queried, so that query order is provable. -/

/-- One iteration of the `uevent_dict` line loop: skip an empty line, warn
about (and skip) a line without `=`, else
`k, v = l.split('=', 1); d[k] = v`. -/
def uevent_step (acc : List String × List (String × String)) (l : String) :
    List String × List (String × String) :=
  if l = "" then acc
  else if ¬ strContains l '=' then (acc.1 ++ [l], acc.2)
  else
    let kv := splitEqOnce l
    (acc.1, odictInsert acc.2 kv.1 kv.2)

/-- The line loop of `uevent_dict` over the fetched text's lines.
Returns (warned lines, dictionary). -/
def uevent_lines (ls : List String) : List String × List (String × String) :=
  ls.foldl uevent_step ([], [])

/-- `uevent_dict` applied to the fetched text. -/
def uevent_dict (text : String) : List String × List (String × String) :=
  uevent_lines (splitlines text)

/-- `fstab_dict` over the fetched text: skip empty lines, warn about lines
with fewer than three whitespace fields, else `d[f[0]] = (f[1], f[2])`.
Returns (warned lines, devname → (mountpoint, fstype)). -/
def fstab_dict (text : String) : List String × List (String × (String × String)) :=
  (splitlines text).foldl
    (fun acc l =>
      if l = "" then acc
      else
        match pySplit l with
        | f0 :: f1 :: f2 :: _ => (acc.1, odictInsert acc.2 f0 (f1, f2))
        | _ => (acc.1 ++ [l], acc.2))
    ([], [])

/-- `PartInfo` namedtuple. -/
structure PartInfo where
  partname : String
  devname : String
  partn : Int
  size : Int
  mountpoint : Option String
  fstype : Option String
deriving DecidableEq, Repr

/-- Canonical-name reconciliation from `build_partmap` (`tetherback.py`
lines 137-144): the chained `if partname==...or mountpoint==...` tests. -/
def canonicalize (partname : String) (mountpoint : Option String) : String :=
  if partname = "system" ∨ mountpoint = some "/system" then "system"
  else if partname = "userdata" ∨ mountpoint = some "/data" then "userdata"
  else if partname = "cache" ∨ mountpoint = some "/cache" then "cache"
  else partname

/-- The device-side text `build_partmap` consults: the fstab, the base
block device attribute record, and per-index attribute records and sector
counts. -/
structure DeviceFS where
  fstabText : String
  baseUevent : String
  partUevent : Nat → String
  partSizeText : Nat → String

/-- One iteration of the `build_partmap` loop body for index `ii`
(`tetherback.py` lines 128-146), excluding the map insertion: any missing
key (`KeyError`) or failing `int(...)` (`ValueError`) aborts the run. -/
def parse_partition_record (dev : DeviceFS) (fstab : List (String × (String × String)))
    (ii : Nat) : Except String (String × PartInfo) :=
  let d := (uevent_dict (dev.partUevent ii)).2
  match dlookup d "DEVNAME" with
  | none => .error "KeyError: DEVNAME"
  | some devname =>
    match dlookup d "PARTN" with
    | none => .error "KeyError: PARTN"
    | some pn =>
      match pyInt pn with
      | none => .error "ValueError: PARTN"
      | some partn =>
        match pyInt (dev.partSizeText ii) with
        | none => .error "ValueError: size"
        | some size =>
          let mpft : Option String × Option String :=
            match dlookup fstab ("/dev/block/" ++ devname) with
            | some p => (some p.1, some p.2)
            | none => (none, none)
          match dlookup d "PARTNAME" with
          | none => .error "KeyError: PARTNAME"
          | some pname0 =>
            let partname := strLower pname0
            .ok (canonicalize partname mpft.1,
                 ⟨partname, devname, partn, size, mpft.1, mpft.2⟩)

/-- The `for ii in range(1, nparts+1)` loop of `build_partmap`: returns the
indices actually queried (in order) and either the finished ordered map or
the first abort. -/
def build_partmap_loop (dev : DeviceFS) (fstab : List (String × (String × String))) :
    List Nat → List (String × PartInfo) → List Nat × Except String (List (String × PartInfo))
  | [], acc => ([], .ok acc)
  | ii :: rest, acc =>
    match parse_partition_record dev fstab ii with
    | .error e => ([ii], .error e)
    | .ok sp =>
      let r := build_partmap_loop dev fstab rest (odictInsert acc sp.1 sp.2)
      (ii :: r.1, r.2)

/-- `build_partmap` (`tetherback.py` lines 119-150): fetch the fstab and the
base attribute record, read `NPARTS` (missing key or non-numeric value
aborts with no map), then visit indices `1..NPARTS`.  Returns (queried
indices, map-or-abort). -/
def build_partmap (dev : DeviceFS) : List Nat × Except String (List (String × PartInfo)) :=
  let fstab := (fstab_dict dev.fstabText).2
  let d := (uevent_dict dev.baseUevent).2
  match dlookup d "NPARTS" with
  | none => ([], .error "KeyError: NPARTS")
  | some s =>
    match pyInt s with
    | none => ([], .error "ValueError: NPARTS")
    | some n => build_partmap_loop dev fstab (List.range' 1 n.toNat) []

/-- The canonical names produced by the successfully parsed records among
`indices`, in visit order. -/
def canonical_names (dev : DeviceFS) (fstab : List (String × (String × String)))
    (indices : List Nat) : List String :=
  indices.filterMap (fun ii =>
    match parse_partition_record dev fstab ii with
    | .ok sp => some sp.1
    | .error _ => none)

/-! ### Backup planner

Embedding of `plan_backup` (`tetherback.py` lines 152-168) over the
argparse-produced selection flags. -/

/-- `BackupPlan` namedtuple: output filename and tar options (`None` for a
raw gzipped image). -/
structure BackupPlan where
  fn : String
  taropts : Option String
deriving DecidableEq, Repr

/-- The slice of the argparse namespace that `plan_backup` reads. -/
structure Selection where
  nandroid : Bool
  extra : List String
  media : Bool
  data_cache : Bool
  boot : Bool
  recovery : Bool
  system : Bool
  userdata : Bool
  cache : Bool
deriving DecidableEq, Repr

/-- `getattr(args, x)` for the standard partition names. -/
def getSelFlag (args : Selection) : String → Bool
  | "boot" => args.boot
  | "recovery" => args.recovery
  | "system" => args.system
  | "userdata" => args.userdata
  | "cache" => args.cache
  | _ => false

/-- Insert a list of pairs into an ordered dict in order (`odict(...)` of a
generator, and `plan.update(...)`). -/
def odictInsertAll {α : Type} (m : List (String × α)) (ps : List (String × α)) :
    List (String × α) :=
  ps.foldl (fun acc kv => odictInsert acc kv.1 kv.2) m

/-- `plan_backup` (`tetherback.py` lines 152-168). -/
def plan_backup (args : Selection) : List (String × BackupPlan) :=
  if args.nandroid then
    let rp := args.extra ++ (["boot", "recovery", "system", "userdata", "cache"].filter
      (getSelFlag args))
    odictInsertAll [] (rp.map (fun p => (p, ⟨p ++ ".tar.gz", none⟩)))
  else
    let rp := args.extra ++ (["boot", "recovery"].filter (getSelFlag args))
    let plan := odictInsertAll [] (rp.map (fun p => (p, ⟨p ++ ".emmc.win", none⟩)))
    let mp := ["cache", "system"].filter (getSelFlag args)
    let plan := odictInsertAll plan (mp.map (fun p => (p, ⟨p ++ ".ext4.win", some "-p"⟩)))
    if args.userdata then
      let data_omit := (if ¬ args.media then ["media*"] else []) ++
        (if ¬ args.data_cache then ["*-cache"] else [])
      odictInsert plan "userdata"
        ⟨"data.ext4.win",
         some ("-p" ++ strJoin (data_omit.map
           (fun x => " --exclude=\"" ++ x ++ "\"")))⟩
    else plan

/-! ### Transport selection

Embedding of the `adbxp` enum and `sensible_transport` (`tetherback.py`
lines 21 and 99-117).  The adb version is the integer tuple parsed from
`adb version`; the host platform string is `sys.platform`. -/

/-- `adbxp = Enum('AdbTransport', 'tcp pipe_xo pipe_b64 pipe_bin')`. -/
inductive Adbxp
  | tcp
  | pipe_xo
  | pipe_b64
  | pipe_bin
deriving DecidableEq, Repr

/-- Python lexicographic `<` on three-component version tuples. -/
def verLt (a b : Nat × Nat × Nat) : Bool :=
  a.1 < b.1 || (a.1 = b.1 && (a.2.1 < b.2.1 || (a.2.1 = b.2.1 && a.2.2 < b.2.2)))

/-- `sensible_transport` (`tetherback.py` lines 99-117): `transport` is the
`--tcp`, `--exec-out`, `--base64` or `--pipe` choice (`None` when
unspecified); the
final `return transport` keeps the requested transport in every case no
inner branch handled. -/
def sensible_transport (transport : Option Adbxp) (adbversion : Nat × Nat × Nat)
    (platform : String) : Option Adbxp :=
  if transport = some .pipe_xo ∧ verLt adbversion (1, 0, 32) then some .tcp
  else if transport = some .pipe_bin then
    if ¬ verLt adbversion (1, 0, 32) then some .pipe_xo
    else if strStartsWith platform "linux" then some .tcp
    else transport
  else if transport = none then
    if ¬ verLt adbversion (1, 0, 32) then some .pipe_xo else some .tcp
  else transport

/-! ### The main phase after inventory and planning

Embedding of `main` (`tetherback.py` lines 286-307) from the
missing-partition check onward, as the ordered trace of its side effects:
the check at lines 292-295 runs before `create_backupdir` at line 301, and
`p.error(...)` exits the process. -/

/-- Observable steps of `main` after `partmap`/`plan` are built. -/
inductive MainEvent
  | showTables
  | fatalStd (missing : List String)
  | fatalCustom (missing : List String)
  | exitDryRun
  | mkdirBackup
  | backupPart (key : String)
deriving DecidableEq, Repr

/-- `main` after planning (`tetherback.py` lines 286-307):
`missing = set(plan) - set(partmap)`; print tables when dry-run, missing
nonempty or verbose; `p.error` with the standard-partition message when
`missing & set(cache, system, data, boot)` is nonempty, else the
non-standard message when `missing` is nonempty; then dry-run exit, then
`create_backupdir` and the per-partition backups in plan order. -/
def main_after_planning (planKeys partmapKeys : List String)
    (dry_run verbose : Bool) : List MainEvent :=
  let missing := planKeys.filter (fun k => ¬ partmapKeys.contains k)
  let shown := if dry_run = true ∨ missing ≠ [] ∨ verbose = true
    then [MainEvent.showTables] else []
  if missing.any (fun k => ["cache", "system", "data", "boot"].contains k) then
    shown ++ [MainEvent.fatalStd missing]
  else if missing ≠ [] then
    shown ++ [MainEvent.fatalCustom missing]
  else if dry_run then
    shown ++ [MainEvent.exitDryRun]
  else
    shown ++ [MainEvent.mkdirBackup] ++ planKeys.map MainEvent.backupPart

/-! ### Mount, unmount and port forwarding (`adb_stuff.py`)

The device shell is a stateful oracle `sh : σ → String → String × σ`
mapping (state, shell command) to (captured output, new state); the
embeddings additionally log the commands they issue. -/

/-- One mount-table line as `really_umount` reads it (`adb_stuff.py` lines
24-33): empty lines and lines with fewer than four fields are skipped
(the latter with a warning); otherwise the device and mountpoint fields,
with the `on ... type` layout shifting the columns. -/
def umount_line_fields (l : String) : Option (String × String) :=
  if l = "" then none
  else
    match pySplit l with
    | f0 :: f1 :: f2 :: f3 :: _ =>
      if f1 = "on" ∧ f3 = "type" then some (f0, f2) else some (f0, f1)
    | _ => none

/-- Whether the mount table text mentions `dev` (device field) or `node`
(mountpoint field) on any line, per `really_umount`'s final scan. -/
def mount_table_mentions (out dev node : String) : Bool :=
  (splitlines out).any (fun l =>
    match umount_line_fields l with
    | some mn => mn.1 = dev || mn.2 = node
    | none => false)

/-- The `for opts in ('','-f','-l','-r')` tuple of `really_umount`. -/
def umount_opts : List String := ["", "-f", "-l", "-r"]

/-- The retry loop of `really_umount` (`adb_stuff.py` lines 19-23): per
iteration it runs `umount <dev>` then `umount <node>` (the loop variable
`opts` is not interpolated into either command), breaking when one echoes
the success marker.  Returns (issued commands, state). -/
def really_umount_loop {σ : Type} (sh : σ → String → String × σ) (dev node : String) :
    List String → σ → List String × σ
  | [], s => ([], s)
  | _opts :: rest, s =>
    let cmd1 := "umount " ++ dev ++ " 2>/dev/null && echo ok"
    let r1 := sh s cmd1
    if pyStrip r1.1 ≠ "" then ([cmd1], r1.2)
    else
      let cmd2 := "umount " ++ node ++ " 2>/dev/null && echo ok"
      let r2 := sh r1.2 cmd2
      if pyStrip r2.1 ≠ "" then ([cmd1, cmd2], r2.2)
      else
        let r := really_umount_loop sh dev node rest r2.2
        (cmd1 :: cmd2 :: r.1, r.2)

/-- `really_umount` (`adb_stuff.py` lines 18-34): run the retry loop, then
fetch the live mount table and succeed iff neither `dev` nor `node` is
still mentioned.  Returns (issued umount commands, final state, result). -/
def really_umount {σ : Type} (sh : σ → String → String × σ) (dev node : String) (s : σ) :
    List String × σ × Bool :=
  let r := really_umount_loop sh dev node umount_opts s
  let q := sh r.2 "mount"
  (r.1, q.2, ¬ mount_table_mentions q.1 dev node)

/-- The mount-table scan of `really_mount` (`adb_stuff.py` lines 7-16):
first line whose device field is `dev` or whose mountpoint field is `node`
yields its fstype field; in the `on ... type` layout the fstype is `f[4]`,
which Python evaluates before the match test, so a four-field `on/type`
line raises `IndexError`. -/
def scan_mount_table : List String → String → String → Except String (Option String)
  | [], _, _ => .ok none
  | l :: rest, dev, node =>
    if l = "" then scan_mount_table rest dev node
    else
      match pySplit l with
      | f0 :: f1 :: f2 :: f3 :: fr =>
        if f1 = "on" ∧ f3 = "type" then
          match fr with
          | [] => .error "IndexError"
          | f4 :: _ =>
            if f0 = dev ∨ f2 = node then .ok (some f4) else scan_mount_table rest dev node
        else
          if f0 = dev ∨ f1 = node then .ok (some f2) else scan_mount_table rest dev node
      | _ => scan_mount_table rest dev node

/-- The mount-command loop of `really_mount` (`adb_stuff.py` lines 4-6):
`mount -o <opts> <dev> <node>` for `opts` in `(mode, 'remount,'+mode)`,
breaking on the first success marker. -/
def really_mount_loop {σ : Type} (sh : σ → String → String × σ) (dev node : String) :
    List String → σ → List String × σ
  | [], s => ([], s)
  | opts :: rest, s =>
    let cmd := "mount -o " ++ opts ++ " " ++ dev ++ " " ++ node ++ " 2>/dev/null && echo ok"
    let r1 := sh s cmd
    if pyStrip r1.1 ≠ "" then ([cmd], r1.2)
    else
      let r := really_mount_loop sh dev node rest r1.2
      (cmd :: r.1, r.2)

/-- `really_mount` (`adb_stuff.py` lines 3-16): run the mount/remount loop,
then fetch the live mount table and return the fstype of the first line
mentioning `dev` or `node` (`none` when no line matches).  Returns (issued
mount commands, final state, result). -/
def really_mount {σ : Type} (sh : σ → String → String × σ) (dev node mode : String) (s : σ) :
    List String × σ × Except String (Option String) :=
  let r := really_mount_loop sh dev node [mode, "remount," ++ mode] s
  let q := sh r.2 "mount"
  (r.1, q.2, scan_mount_table (splitlines q.1) dev node)

/-- The candidate loop of `really_forward` (`adb_stuff.py` lines 37-40):
try `adb forward` on each candidate port, returning the first accepted one
and sleeping one second after each failure.  Returns (failed attempts,
reserved port). -/
def really_forward_loop (callOk : Nat → Bool) : List Nat → Nat × Option Nat
  | [] => (0, none)
  | p :: rest =>
    if callOk p then (0, some p)
    else
      let r := really_forward_loop callOk rest
      (r.1 + 1, r.2)

/-- `really_forward` (`adb_stuff.py` lines 36-40): candidates are
`range(port1, port2)`; `callOk p` states that `adb forward tcp:p tcp:p`
returned 0. -/
def really_forward (callOk : Nat → Bool) (port1 port2 : Nat) : Nat × Option Nat :=
  really_forward_loop callOk (List.range' port1 (port2 - port1))

/-- The ForwardedTCP setup in `backup_partition` (`tetherback.py` lines
234-236): `really_forward(adb, 5600+partn, 5700+partn)`, raising
`RuntimeError` when no port was reserved. -/
def forward_tcp_setup (callOk : Nat → Bool) (partn : Nat) : Except String Nat :=
  match (really_forward callOk (5600 + partn) (5700 + partn)).2 with
  | none => .error "%s: could not ADB-forward a TCP port"
  | some port => .ok port

/-! ### Stream verification (`backup_partition`, `tetherback.py` 213-264)

The streaming digest is an abstract fold (`md5()` / `.update(block)` /
`.hexdigest()`); bytes are `Nat` lists.  The remote digest text is the
output of `cat /tmp/md5out`, parsed with `.strip().split()[0]`. -/

/-- An incremental hash: initial state, per-block update, hex rendering. -/
structure HashModel (H : Type) where
  init : H
  update : H → List Nat → H
  hexdigest : H → String

/-- Result of the write-and-verify phase: the bytes written to `bp.fn`
(the file is never deleted), the sidecar file (name, content) if one was
written, and the raised error if any. -/
structure BackupOutcome where
  outContent : List Nat
  sidecar : Option (String × String)
  failure : Option String
deriving DecidableEq, Repr

/-- The write loop and verification tail of `backup_partition`
(`tetherback.py` lines 248-264): write every block to `bp.fn`, folding the
local digest over the same blocks when `verify`; then read back the
device-side digest, raise `RuntimeError` on hex mismatch (no sidecar
written, output file left in place), and on match write
`<fn>.md5` via `print('%s *%s' % (localmd5, bp.fn), file=md5out)`. -/
def backup_write_verify {H : Type} (hm : HashModel H) (blocks : List (List Nat))
    (deviceOut : String) (fn : String) (verify : Bool) : BackupOutcome :=
  let outContent := blocks.flatten
  if verify then
    let localmd5 := hm.hexdigest (blocks.foldl hm.update hm.init)
    match pySplit (pyStrip deviceOut) with
    | [] => ⟨outContent, none, some "IndexError"⟩
    | devicemd5 :: _ =>
      if devicemd5 ≠ localmd5 then
        ⟨outContent, none,
         some ("md5sum mismatch (local " ++ localmd5 ++ ", device " ++ devicemd5 ++ ")")⟩
      else
        ⟨outContent, some (fn ++ ".md5", localmd5 ++ " *" ++ fn ++ "\n"), none⟩
  else ⟨outContent, none, none⟩

/-! ### Spec-side reference definitions

These definitions follow the specification's wording (not the code); the
refinement theorems below compare them with the embedded code. -/

/-- The three standard (raw name, mountpoint) pairs, in the order the
code's chained conditionals test them. -/
def std_name_table : List (String × String) :=
  [("system", "/system"), ("userdata", "/data"), ("cache", "/cache")]

/-- Canonicalization described by fixed priority order: the first standard
pair whose raw name or mountpoint matches wins; otherwise the (lower-cased)
raw name is kept. -/
def canonical_by_priority (partname : String) (mountpoint : Option String) : String :=
  match std_name_table.find? (fun e => decide (partname = e.1 ∨ mountpoint = some e.2)) with
  | some e => e.1
  | none => partname

/-- Fields (device, mountpoint, fstype) of one mount-table line per the
documented format: whitespace-tokenized, with the `on ... type` layout
shifting the fstype column; lines too short to carry the fields parse to
nothing. -/
def mount_line_fields (l : String) : Option (String × String × String) :=
  match pySplit l with
  | f0 :: f1 :: f2 :: f3 :: fr =>
    if f1 = "on" ∧ f3 = "type" then
      match fr with
      | f4 :: _ => some (f0, f2, f4)
      | [] => none
    else some (f0, f1, f2)
  | _ => none

/-- Well-formedness of one mount-table line for `really_mount`'s scan: a
four-field line must not use the `on ... type` layout (which would carry no
fstype field and make Python's `f[4]` raise `IndexError`). -/
def mount_line_ok (l : String) : Bool :=
  match pySplit l with
  | _ :: f1 :: _ :: f3 :: [] => if f1 = "on" ∧ f3 = "type" then false else true
  | _ => true

/-- The specification's description of mount-success detection: the fstype
of the first mount-table line whose device field equals `dev` or whose
mountpoint field equals `node`. -/
def spec_scan (lines : List String) (dev node : String) : Option String :=
  lines.findSome? (fun l =>
    match mount_line_fields l with
    | some fds => if fds.1 = dev ∨ fds.2.1 = node then some fds.2.2 else none
    | none => none)

/-- Whether `parse_partition_record` succeeds for index `ii` (every
per-index attribute record is well-formed there). -/
def parseOk (dev : DeviceFS) (fstab : List (String × (String × String))) (ii : Nat) : Bool :=
  match parse_partition_record dev fstab ii with
  | .ok _ => true
  | .error _ => false

/-! ### Helper lemmas about dictionaries -/

theorem dkeys_cons {α : Type} (kv : String × α) (l : List (String × α)) :
    dkeys (kv :: l) = kv.1 :: dkeys l := rfl

theorem dlookup_odictInsert {α : Type} (m : List (String × α)) (k : String) (v : α)
    (n : String) :
    dlookup (odictInsert m k v) n = if k = n then some v else dlookup m n := by
  induction m with
  | nil => simp [odictInsert, dlookup]
  | cons kv rest ih =>
    simp only [odictInsert]
    by_cases hk : kv.1 = k
    · rw [if_pos hk]
      by_cases hn : k = n
      · simp [dlookup, hn]
      · have hkvn : ¬ kv.1 = n := by rw [hk]; exact hn
        simp [dlookup, hn, hkvn]
    · rw [if_neg hk]
      by_cases hkvn : kv.1 = n
      · have hn : ¬ k = n := by
          intro h
          exact hk (hkvn.trans h.symm)
        simp [dlookup, hkvn, hn]
      · simp [dlookup, hkvn, ih]

theorem dkeys_odictInsert {α : Type} (m : List (String × α)) (k : String) (v : α)
    (n : String) :
    n ∈ dkeys (odictInsert m k v) ↔ n = k ∨ n ∈ dkeys m := by
  induction m with
  | nil => simp [odictInsert, dkeys]
  | cons kv rest ih =>
    simp only [odictInsert]
    by_cases hk : kv.1 = k
    · rw [if_pos hk, dkeys_cons, dkeys_cons, hk]
      simp only [List.mem_cons]
      tauto
    · rw [if_neg hk, dkeys_cons, dkeys_cons]
      simp only [List.mem_cons, ih]
      tauto

theorem dkeys_nodup_odictInsert {α : Type} (m : List (String × α)) (k : String) (v : α)
    (h : (dkeys m).Nodup) : (dkeys (odictInsert m k v)).Nodup := by
  induction m with
  | nil => simp [odictInsert, dkeys]
  | cons kv rest ih =>
    rw [dkeys_cons] at h
    simp only [odictInsert]
    by_cases hk : kv.1 = k
    · rw [if_pos hk, dkeys_cons]
      simp only [List.nodup_cons] at h ⊢
      exact ⟨by rw [← hk]; exact h.1, h.2⟩
    · rw [if_neg hk, dkeys_cons]
      simp only [List.nodup_cons] at h ⊢
      refine ⟨?_, ih h.2⟩
      intro hmem
      rcases (dkeys_odictInsert rest k v kv.1).1 hmem with h3 | h3
      · exact hk h3
      · exact h.1 h3

/-! ### C3: canonical-name tie resolution -/

/-- C3 counterexample: a record with raw name `system` and live mountpoint
`/data` maps to different standard names; the code canonicalizes it to
`system` (from the raw name), not to the mountpoint-derived `userdata`
the claim requires. -/
theorem canonicalize_tie_counterexample :
    canonicalize "system" (some "/data") = "system" ∧
    canonicalize "system" (some "/data") ≠ "userdata" := by decide

/-- C3 amended: when raw name and mountpoint map to different standard
names, the tie resolves by the fixed priority order of the chained tests
(system, then userdata, then cache): the canonical name is the first
standard pair matched by raw name or mountpoint, not the mountpoint's
standard name. -/
theorem canonicalize_priority_order (pn : String) (mp : Option String) :
    canonicalize pn mp = canonical_by_priority pn mp := by
  unfold canonicalize canonical_by_priority std_name_table
  by_cases h1 : pn = "system" ∨ mp = some "/system"
  · simp [List.find?, h1]
  · by_cases h2 : pn = "userdata" ∨ mp = some "/data"
    · simp [List.find?, h1, h2]
    · by_cases h3 : pn = "cache" ∨ mp = some "/cache"
      · simp [List.find?, h1, h2, h3]
      · simp [List.find?, h1, h2, h3]

/-! ### C8: raw shell pipe platform gating -/

/-- C8: with `--pipe` explicitly requested and adb older than 1.0.32 (no
exec-out), the code switches a Linux host to TCP — despite its own warning
that the pipe only works on Linux — and keeps the raw shell pipe on every
non-Linux host, the reverse of the documented platform gating. -/
theorem sensible_transport_pipe_bin_platform :
    sensible_transport (some Adbxp.pipe_bin) (1, 0, 31) "linux" = some Adbxp.tcp ∧
    sensible_transport (some Adbxp.pipe_bin) (1, 0, 31) "darwin" = some Adbxp.pipe_bin ∧
    sensible_transport (some Adbxp.pipe_bin) (1, 0, 31) "win32" = some Adbxp.pipe_bin := by
  decide

/-! ### C9: missing-partition diagnostic classification -/

/-- C9: the code classifies missing plan keys against the literal set
`cache, system, data, boot`: the standard names `userdata` and `recovery`
get the non-standard (user-typo) diagnostic, while `data` — which is never
a plan key, since plans always use the canonical `userdata` — would get the
standard one. -/
theorem main_missing_standard_set_mismatch :
    main_after_planning ["boot", "userdata"] ["boot"] false false =
      [MainEvent.showTables, MainEvent.fatalCustom ["userdata"]] ∧
    main_after_planning ["recovery"] [] false false =
      [MainEvent.showTables, MainEvent.fatalCustom ["recovery"]] ∧
    main_after_planning ["data"] [] false false =
      [MainEvent.showTables, MainEvent.fatalStd ["data"]] := by decide

/-! ### C7: unmount option variants -/

/-- C7: on a device whose shell reports every `umount` as failed and whose
mount table still lists the device, `really_umount` issues eight identical
option-less commands — the loop's `('','-f','-l','-r')` variants are never
interpolated into any command (no issued command even contains a `-`) —
and then reports failure from the mount table. -/
theorem really_umount_options_never_applied :
    (really_umount (fun (s : Unit) c =>
        (if c = "mount" then "/dev/block/mmcblk0p5 on /data type ext4 (rw)\n" else "", s))
        "/dev/block/mmcblk0p5" "/data" ()).1 =
      ["umount /dev/block/mmcblk0p5 2>/dev/null && echo ok",
       "umount /data 2>/dev/null && echo ok",
       "umount /dev/block/mmcblk0p5 2>/dev/null && echo ok",
       "umount /data 2>/dev/null && echo ok",
       "umount /dev/block/mmcblk0p5 2>/dev/null && echo ok",
       "umount /data 2>/dev/null && echo ok",
       "umount /dev/block/mmcblk0p5 2>/dev/null && echo ok",
       "umount /data 2>/dev/null && echo ok"] ∧
    (really_umount (fun (s : Unit) c =>
        (if c = "mount" then "/dev/block/mmcblk0p5 on /data type ext4 (rw)\n" else "", s))
        "/dev/block/mmcblk0p5" "/data" ()).2.2 = false ∧
    ((really_umount (fun (s : Unit) c =>
        (if c = "mount" then "/dev/block/mmcblk0p5 on /data type ext4 (rw)\n" else "", s))
        "/dev/block/mmcblk0p5" "/data" ()).1.all
      (fun c => !(strContains c '-'))) = true := by decide

/-! ### C1: stream verification and the sidecar digest file -/

/-- C1 counterexample: on a verified run whose digests match, the sidecar
file's content is the digest line followed by a newline (Python `print`
appends one), so it is not exactly `<hexdigest> *<outputFilename>`. -/
theorem backup_verify_sidecar_counterexample :
    (backup_write_verify (⟨(), fun h _ => h, fun _ => "abcd"⟩ : HashModel Unit)
        [[1, 2]] "abcd  /tmp/md5in\n" "boot.emmc.win" true).sidecar =
      some ("boot.emmc.win.md5", "abcd *boot.emmc.win\n") ∧
    (backup_write_verify (⟨(), fun h _ => h, fun _ => "abcd"⟩ : HashModel Unit)
        [[1, 2]] "abcd  /tmp/md5in\n" "boot.emmc.win" true).sidecar ≠
      some ("boot.emmc.win.md5", "abcd *boot.emmc.win") := by decide

/-- C1 amended: with verification enabled, after the stream closes the
first token of the device digest readback is compared to the digest folded
over the blocks written locally; on mismatch an error is raised, the
output file content is retained and no sidecar is produced; on match the
sidecar `<fn>.md5` is written containing `<hexdigest> *<fn>` followed by a
newline. -/
theorem backup_verify_spec {H : Type} (hm : HashModel H) (blocks : List (List Nat))
    (deviceOut fn dm : String) (ds : List String)
    (hparse : pySplit (pyStrip deviceOut) = dm :: ds) :
    (backup_write_verify hm blocks deviceOut fn true).outContent = blocks.flatten ∧
    (dm ≠ hm.hexdigest (blocks.foldl hm.update hm.init) →
      (backup_write_verify hm blocks deviceOut fn true).failure =
        some ("md5sum mismatch (local " ++ hm.hexdigest (blocks.foldl hm.update hm.init) ++
          ", device " ++ dm ++ ")") ∧
      (backup_write_verify hm blocks deviceOut fn true).sidecar = none) ∧
    (dm = hm.hexdigest (blocks.foldl hm.update hm.init) →
      (backup_write_verify hm blocks deviceOut fn true).failure = none ∧
      (backup_write_verify hm blocks deviceOut fn true).sidecar =
        some (fn ++ ".md5",
          hm.hexdigest (blocks.foldl hm.update hm.init) ++ " *" ++ fn ++ "\n")) := by
  by_cases hd : dm = hm.hexdigest (blocks.foldl hm.update hm.init) <;>
    simp [backup_write_verify, hparse, hd]

/-- C1 witness: a concrete matching run through `backup_verify_spec`. -/
theorem backup_verify_spec_witness :
    (backup_write_verify (⟨(), fun h _ => h, fun _ => "abcd"⟩ : HashModel Unit)
        [[1, 2]] "abcd  /tmp/md5in\n" "part.img" true).failure = none ∧
    (backup_write_verify (⟨(), fun h _ => h, fun _ => "abcd"⟩ : HashModel Unit)
        [[1, 2]] "abcd  /tmp/md5in\n" "part.img" true).sidecar =
      some ("part.img.md5", "abcd *part.img\n") := by
  have h := backup_verify_spec (⟨(), fun h _ => h, fun _ => "abcd"⟩ : HashModel Unit)
      [[1, 2]] "abcd  /tmp/md5in\n" "part.img" "abcd" ["/tmp/md5in"] (by decide)
  exact h.2.2 (by decide)

/-! ### C2: missing partitions abort before any side effect -/

/-- C2: when some plan key is absent from the partition map, the run ends
with a fatal diagnostic carrying exactly the missing keys, and no
backup-directory creation (nor any backup) occurs. -/
theorem main_missing_aborts_before_mkdir (planKeys partmapKeys : List String)
    (dry_run verbose : Bool)
    (hmiss : ∃ k, k ∈ planKeys ∧ k ∉ partmapKeys) :
    MainEvent.mkdirBackup ∉ main_after_planning planKeys partmapKeys dry_run verbose ∧
    ∃ missing,
      (main_after_planning planKeys partmapKeys dry_run verbose =
          [MainEvent.showTables, MainEvent.fatalStd missing] ∨
       main_after_planning planKeys partmapKeys dry_run verbose =
          [MainEvent.showTables, MainEvent.fatalCustom missing]) ∧
      (∀ k, k ∈ missing ↔ (k ∈ planKeys ∧ k ∉ partmapKeys)) := by
  classical
  obtain ⟨k0, hk0p, hk0m⟩ := hmiss
  have hmem : ∀ k, k ∈ planKeys.filter (fun k => ¬ partmapKeys.contains k) ↔
      (k ∈ planKeys ∧ k ∉ partmapKeys) := by
    intro k
    simp [List.mem_filter, List.contains]
  have hne : planKeys.filter (fun k => ¬ partmapKeys.contains k) ≠ [] := by
    intro h
    exact List.not_mem_nil k0 (h ▸ (hmem k0).2 ⟨hk0p, hk0m⟩)
  simp only [main_after_planning]
  rw [if_pos (Or.inr (Or.inl hne))]
  by_cases hstd : (planKeys.filter (fun k => ¬ partmapKeys.contains k)).any
      (fun k => ["cache", "system", "data", "boot"].contains k) = true
  · rw [if_pos hstd]
    refine ⟨by simp, planKeys.filter (fun k => ¬ partmapKeys.contains k), Or.inl rfl, hmem⟩
  · rw [if_neg hstd, if_pos hne]
    refine ⟨by simp, planKeys.filter (fun k => ¬ partmapKeys.contains k), Or.inr rfl, hmem⟩

/-- C2 witness: plan keys `boot, extraz` against a map holding only
`boot`. -/
theorem main_missing_aborts_witness :
    MainEvent.mkdirBackup ∉ main_after_planning ["boot", "extraz"] ["boot"] false false ∧
    ∃ missing,
      (main_after_planning ["boot", "extraz"] ["boot"] false false =
          [MainEvent.showTables, MainEvent.fatalStd missing] ∨
       main_after_planning ["boot", "extraz"] ["boot"] false false =
          [MainEvent.showTables, MainEvent.fatalCustom missing]) ∧
      (∀ k, k ∈ missing ↔ (k ∈ ["boot", "extraz"] ∧ k ∉ (["boot"] : List String))) :=
  main_missing_aborts_before_mkdir ["boot", "extraz"] ["boot"] false false
    ⟨"extraz", by decide, by decide⟩

/-! ### C6: port allocation -/

theorem really_forward_loop_all_fail (callOk : Nat → Bool) :
    ∀ l : List Nat, (∀ p ∈ l, callOk p = false) →
      really_forward_loop callOk l = (l.length, none) := by
  intro l
  induction l with
  | nil => intro _; rfl
  | cons p rest ih =>
    intro h
    have hp : callOk p = false := h p (List.mem_cons_self p rest)
    simp [really_forward_loop, hp, ih (fun q hq => h q (List.mem_cons_of_mem _ hq))]

theorem really_forward_loop_some_ok (callOk : Nat → Bool) :
    ∀ (l : List Nat) (q : Nat), (really_forward_loop callOk l).2 = some q →
      callOk q = true := by
  intro l
  induction l with
  | nil => intro q h; simp [really_forward_loop] at h
  | cons p rest ih =>
    intro q h
    by_cases hp : callOk p = true
    · simp [really_forward_loop, hp] at h
      rw [← h]
      exact hp
    · have hp2 : callOk p = false := by
        exact Bool.eq_false_iff.2 hp
      simp [really_forward_loop, hp2] at h
      exact ih q h

theorem really_forward_loop_prefix (callOk : Nat → Bool) :
    ∀ (K s n : Nat), K < n → (∀ j, j < K → callOk (s + j) = false) →
      callOk (s + K) = true →
      really_forward_loop callOk (List.range' s n) = (K, some (s + K)) := by
  intro K
  induction K with
  | zero =>
    intro s n hn hfail hok
    match n, hn with
    | n + 1, _ =>
      rw [List.range'_succ]
      rw [Nat.add_zero] at hok
      simp [really_forward_loop, hok]
  | succ K ih =>
    intro s n hn hfail hok
    match n, hn with
    | n + 1, hn =>
      rw [List.range'_succ]
      have h0 : callOk s = false := by
        have h := hfail 0 (Nat.succ_pos K)
        simpa using h
      have ihr := ih (s + 1) n (Nat.lt_of_succ_lt_succ hn)
        (fun j hj => by
          have h := hfail (j + 1) (Nat.succ_lt_succ hj)
          rw [show s + (j + 1) = s + 1 + j by omega] at h
          exact h)
        (by rw [show s + 1 + K = s + (K + 1) by omega]; exact hok)
      simp only [really_forward_loop, h0, Bool.false_eq_true, if_false, ihr]
      refine Prod.ext rfl ?_
      show some (s + 1 + K) = some (s + (K + 1))
      exact congrArg some (by omega)

/-- C6: `really_forward` tries the candidate ports of its range in
sequence, sleeping after each failure: with the first `K` candidates
refused and the next one accepted it performs exactly `K` failed attempts
and returns that candidate; it only ever returns an accepted (free) port;
and when every candidate in the range is refused it returns no port after
`port2 - port1` failed attempts, upon which the executor's ForwardedTCP
setup raises its fatal error. -/
theorem really_forward_spec (callOk : Nat → Bool) (port1 port2 K partn : Nat) :
    ((∀ j, j < K → callOk (port1 + j) = false) → callOk (port1 + K) = true →
      port1 + K < port2 →
      really_forward callOk port1 port2 = (K, some (port1 + K))) ∧
    (∀ q, (really_forward callOk port1 port2).2 = some q → callOk q = true) ∧
    ((∀ p, port1 ≤ p → p < port2 → callOk p = false) →
      really_forward callOk port1 port2 = (port2 - port1, none)) ∧
    ((∀ p, 5600 + partn ≤ p → p < 5700 + partn → callOk p = false) →
      forward_tcp_setup callOk partn = .error "%s: could not ADB-forward a TCP port") := by
  have hall : ∀ a b : Nat, (∀ p, a ≤ p → p < b → callOk p = false) →
      really_forward callOk a b = (b - a, none) := by
    intro a b h
    have hf : ∀ p ∈ List.range' a (b - a), callOk p = false := by
      intro p hp
      rw [List.mem_range'] at hp
      obtain ⟨i, hi, rfl⟩ := hp
      exact h _ (by omega) (by omega)
    have h2 := really_forward_loop_all_fail callOk (List.range' a (b - a)) hf
    simpa [really_forward] using h2
  refine ⟨?_, ?_, hall port1 port2, ?_⟩
  · intro hfail hok hlt
    exact really_forward_loop_prefix callOk K port1 (port2 - port1) (by omega) hfail hok
  · intro q h
    exact really_forward_loop_some_ok callOk _ q h
  · intro h
    have h2 := hall (5600 + partn) (5700 + partn) h
    unfold forward_tcp_setup
    rw [show (really_forward callOk (5600 + partn) (5700 + partn)).2 = none from by
      rw [h2]]

/-- C6 witness: ports 5600 and 5601 refused, 5602 free. -/
theorem really_forward_spec_witness :
    really_forward (fun p => decide (5602 ≤ p)) 5600 5700 = (2, some 5602) :=
  (really_forward_spec (fun p => decide (5602 ≤ p)) 5600 5700 2 0).1
    (by decide) (by decide) (by decide)

/-! ### C10: mount success judged by the mount table alone -/

theorem scan_mount_table_eq_spec (dev node : String) :
    ∀ lines : List String, (∀ l ∈ lines, mount_line_ok l = true) →
      scan_mount_table lines dev node = .ok (spec_scan lines dev node) := by
  intro lines
  induction lines with
  | nil => intro _; rfl
  | cons l rest ih =>
    intro h
    have hok : mount_line_ok l = true := h l (List.mem_cons_self l rest)
    have hrest := ih (fun x hx => h x (List.mem_cons_of_mem _ hx))
    by_cases hl : l = ""
    · subst hl
      have hfields : mount_line_fields "" = none := by decide
      simpa [scan_mount_table, spec_scan, List.findSome?_cons, hfields] using hrest
    · rcases hsplit : pySplit l with _ | ⟨f0, _ | ⟨f1, _ | ⟨f2, _ | ⟨f3, fr⟩⟩⟩⟩
      · simpa [scan_mount_table, spec_scan, List.findSome?_cons, mount_line_fields,
          hsplit, hl] using hrest
      · simpa [scan_mount_table, spec_scan, List.findSome?_cons, mount_line_fields,
          hsplit, hl] using hrest
      · simpa [scan_mount_table, spec_scan, List.findSome?_cons, mount_line_fields,
          hsplit, hl] using hrest
      · simpa [scan_mount_table, spec_scan, List.findSome?_cons, mount_line_fields,
          hsplit, hl] using hrest
      · by_cases hot : f1 = "on" ∧ f3 = "type"
        · cases fr with
          | nil =>
            exfalso
            rw [mount_line_ok, hsplit] at hok
            simp [hot] at hok
          | cons f4 fr2 =>
            by_cases hm : f0 = dev ∨ f2 = node
            · simp [scan_mount_table, spec_scan, List.findSome?_cons, mount_line_fields,
                hsplit, hl, hot, hm]
            · simpa [scan_mount_table, spec_scan, List.findSome?_cons, mount_line_fields,
                hsplit, hl, hot, hm] using hrest
        · by_cases hm : f0 = dev ∨ f1 = node
          · simp [scan_mount_table, spec_scan, List.findSome?_cons, mount_line_fields,
              hsplit, hl, hot, hm]
          · simpa [scan_mount_table, spec_scan, List.findSome?_cons, mount_line_fields,
              hsplit, hl, hot, hm] using hrest

/-- C10: `really_mount` judges success solely by the post-command mount
table: its result is exactly the fstype of the first well-formed table
line whose device field equals the requested device or whose mountpoint
field equals the requested node (`none` exactly when no line matches), and
for a stateless bridge the result is unchanged under arbitrary changes to
the mount/remount command responses — an already-mounted partition, even
read-write, is accepted without the achieved mode being checked. -/
theorem really_mount_table_only {σ : Type} (sh : σ → String → String × σ)
    (dev node mode : String) (s : σ) (tbl : String)
    (htbl : tbl = (sh (really_mount_loop sh dev node [mode, "remount," ++ mode] s).2 "mount").1)
    (hwf : ∀ l ∈ splitlines tbl, mount_line_ok l = true) :
    (really_mount sh dev node mode s).2.2 = .ok (spec_scan (splitlines tbl) dev node) ∧
    ((really_mount sh dev node mode s).2.2 = .ok none ↔
      ∀ l ∈ splitlines tbl, ∀ fds, mount_line_fields l = some fds →
        ¬ (fds.1 = dev ∨ fds.2.1 = node)) ∧
    (∀ resp resp2 : String → String, resp "mount" = resp2 "mount" →
      (really_mount (fun (u : Unit) c => (resp c, u)) dev node mode ()).2.2 =
        (really_mount (fun (u : Unit) c => (resp2 c, u)) dev node mode ()).2.2) := by
  have h1 : (really_mount sh dev node mode s).2.2 =
      scan_mount_table (splitlines tbl) dev node := by
    rw [htbl]
    rfl
  have h2 := scan_mount_table_eq_spec dev node (splitlines tbl) hwf
  refine ⟨h1.trans h2, ?_, ?_⟩
  · rw [h1.trans h2]
    constructor
    · intro h l hlmem fds hfds hmatch
      have hnone : spec_scan (splitlines tbl) dev node = none := by
        exact Option.some.inj (congrArg (fun e => match e with
          | Except.ok o => some o
          | Except.error _ => none) h) ▸ rfl
      rw [spec_scan, List.findSome?_eq_none_iff] at hnone
      have := hnone l hlmem
      rw [hfds] at this
      simp [hmatch] at this
    · intro h
      have hnone : spec_scan (splitlines tbl) dev node = none := by
        rw [spec_scan, List.findSome?_eq_none_iff]
        intro l hlmem
        cases hfds : mount_line_fields l with
        | none => rfl
        | some fds =>
          have := h l hlmem fds hfds
          simp [this]
      rw [hnone]
  · intro resp resp2 hresp
    have e1 : (really_mount (fun (u : Unit) c => (resp c, u)) dev node mode ()).2.2 =
        scan_mount_table (splitlines (resp "mount")) dev node := rfl
    have e2 : (really_mount (fun (u : Unit) c => (resp2 c, u)) dev node mode ()).2.2 =
        scan_mount_table (splitlines (resp2 "mount")) dev node := rfl
    rw [e1, e2, hresp]

/-- C10 witness: a device whose mount table already lists the partition
mounted read-write at `/cache`; `really_mount` reports fstype `ext4`
although every mount command response is empty. -/
theorem really_mount_table_only_witness :
    (really_mount (fun (u : Unit) c =>
        (if c = "mount" then
          "/dev/block/mmcblk0p3 on /cache type ext4 (rw)\nrootfs on / type rootfs (ro)\n"
         else "", u))
      "/dev/block/mmcblk0p3" "/cache" "ro" ()).2.2 = .ok (some "ext4") := by
  have h := (really_mount_table_only (fun (u : Unit) c =>
        (if c = "mount" then
          "/dev/block/mmcblk0p3 on /cache type ext4 (rw)\nrootfs on / type rootfs (ro)\n"
         else "", u))
      "/dev/block/mmcblk0p3" "/cache" "ro" ()
      "/dev/block/mmcblk0p3 on /cache type ext4 (rw)\nrootfs on / type rootfs (ro)\n"
      (by decide) (by decide)).1
  rw [h]
  have h2 : spec_scan (splitlines
      "/dev/block/mmcblk0p3 on /cache type ext4 (rw)\nrootfs on / type rootfs (ro)\n")
      "/dev/block/mmcblk0p3" "/cache" = some "ext4" := by decide
  rw [h2]

/-! ### C4: the backup plan table -/

theorem dlookup_insertAll_keyed {α : Type} (f : String → α) (rp : List String)
    (m : List (String × α)) (n : String) :
    dlookup (odictInsertAll m (rp.map (fun p => (p, f p)))) n =
      if n ∈ rp then some (f n) else dlookup m n := by
  induction rp generalizing m with
  | nil => simp [odictInsertAll]
  | cons p rest ih =>
    have step : odictInsertAll m ((p, f p) :: rest.map (fun q => (q, f q))) =
        odictInsertAll (odictInsert m p (f p)) (rest.map (fun q => (q, f q))) := rfl
    simp only [List.map_cons]
    rw [step, ih, dlookup_odictInsert]
    by_cases h1 : n ∈ rest
    · simp [h1]
    · by_cases h2 : p = n
      · subst h2
        simp [h1]
      · have h3 : ¬ n ∈ p :: rest := by
          intro hc
          rcases List.mem_cons.1 hc with hc1 | hc2
          · exact h2 hc1.symm
          · exact h1 hc2
        simp [h1, h2, h3]

theorem dlookup_insertAll_keyed_append {α : Type} (f : String → α) (l1 l2 : List String)
    (m : List (String × α)) (n : String) :
    dlookup (odictInsertAll m
        (l1.map (fun p => (p, f p)) ++ l2.map (fun p => (p, f p)))) n =
      if n ∈ l1 ++ l2 then some (f n) else dlookup m n := by
  have hsplit : odictInsertAll m (l1.map (fun p => (p, f p)) ++ l2.map (fun p => (p, f p))) =
      odictInsertAll (odictInsertAll m (l1.map (fun p => (p, f p))))
        (l2.map (fun p => (p, f p))) :=
    List.foldl_append _ _ _ _
  rw [hsplit, dlookup_insertAll_keyed, dlookup_insertAll_keyed]
  by_cases h1 : n ∈ l2
  · simp [h1, List.mem_append]
  · by_cases h2 : n ∈ l1 <;> simp [h1, h2, List.mem_append]

/-- C4: `plan_backup` is a pure function of the selection, and its table
matches the spec: in nandroid mode every selected partition (standard or
extra) is planned as `<name>.tar.gz` with no archive options; in TWRP mode
boot/recovery (when selected) are raw `<name>.emmc.win` entries,
cache/system are `<name>.ext4.win` tarballs with options `-p`, and
userdata is a tarball whose options append one exclusion glob per disabled
content category. -/
theorem plan_backup_spec (sel : Selection) :
    (∀ sel2 : Selection, sel2 = sel → plan_backup sel2 = plan_backup sel) ∧
    (sel.nandroid = true →
      ∀ n, (n ∈ sel.extra ∨
          n ∈ (["boot", "recovery", "system", "userdata", "cache"].filter (getSelFlag sel))) →
        dlookup (plan_backup sel) n = some ⟨n ++ ".tar.gz", none⟩) ∧
    (sel.nandroid = false →
      (sel.boot = true → dlookup (plan_backup sel) "boot" = some ⟨"boot.emmc.win", none⟩) ∧
      (sel.recovery = true →
        dlookup (plan_backup sel) "recovery" = some ⟨"recovery.emmc.win", none⟩) ∧
      (sel.cache = true →
        dlookup (plan_backup sel) "cache" = some ⟨"cache.ext4.win", some "-p"⟩) ∧
      (sel.system = true →
        dlookup (plan_backup sel) "system" = some ⟨"system.ext4.win", some "-p"⟩) ∧
      (sel.userdata = true → dlookup (plan_backup sel) "userdata" =
        some ⟨"data.ext4.win",
          some ("-p" ++ (if sel.media then "" else " --exclude=\"media*\"") ++
            (if sel.data_cache then "" else " --exclude=\"*-cache\""))⟩)) := by
  refine ⟨fun sel2 h => by rw [h], ?_, ?_⟩
  · intro hn n hmem
    have hrp : n ∈ sel.extra ++
        (["boot", "recovery", "system", "userdata", "cache"].filter (getSelFlag sel)) :=
      List.mem_append.2 hmem
    simp [plan_backup, hn, dlookup_insertAll_keyed, dlookup_insertAll_keyed_append, hrp]
  · intro hn
    refine ⟨?_, ?_, ?_, ?_, ?_⟩
    · intro hb
      have hrp : "boot" ∈ sel.extra ++ (["boot", "recovery"].filter (getSelFlag sel)) := by
        refine List.mem_append.2 (Or.inr ?_)
        simp [List.mem_filter, getSelFlag, hb]
      have hnm : ¬ "boot" ∈ (["cache", "system"].filter (getSelFlag sel)) := by
        intro hc
        have h := (List.mem_filter.1 hc).1
        simp at h
      by_cases hu : sel.userdata = true <;>
        simp [plan_backup, hn, hu, dlookup_odictInsert, dlookup_insertAll_keyed, dlookup_insertAll_keyed_append, hrp, hnm]
    · intro hb
      have hrp : "recovery" ∈ sel.extra ++ (["boot", "recovery"].filter (getSelFlag sel)) := by
        refine List.mem_append.2 (Or.inr ?_)
        simp [List.mem_filter, getSelFlag, hb]
      have hnm : ¬ "recovery" ∈ (["cache", "system"].filter (getSelFlag sel)) := by
        intro hc
        have h := (List.mem_filter.1 hc).1
        simp at h
      by_cases hu : sel.userdata = true <;>
        simp [plan_backup, hn, hu, dlookup_odictInsert, dlookup_insertAll_keyed, dlookup_insertAll_keyed_append, hrp, hnm]
    · intro hc
      have hmp : "cache" ∈ (["cache", "system"].filter (getSelFlag sel)) := by
        simp [List.mem_filter, getSelFlag, hc]
      by_cases hu : sel.userdata = true <;>
        simp [plan_backup, hn, hu, dlookup_odictInsert, dlookup_insertAll_keyed, dlookup_insertAll_keyed_append, hmp]
    · intro hs
      have hmp : "system" ∈ (["cache", "system"].filter (getSelFlag sel)) := by
        simp [List.mem_filter, getSelFlag, hs]
      by_cases hu : sel.userdata = true <;>
        simp [plan_backup, hn, hu, dlookup_odictInsert, dlookup_insertAll_keyed, dlookup_insertAll_keyed_append, hmp]
    · intro hu
      by_cases hm : sel.media = true <;> by_cases hdc : sel.data_cache = true <;>
        simp [plan_backup, hn, hu, hm, hdc, dlookup_odictInsert, strJoin]

/-- C4 witness: a TWRP selection with media and data caches disabled, and
a nandroid selection with an extra partition. -/
theorem plan_backup_spec_witness :
    dlookup (plan_backup ⟨false, ["modem"], false, false, true, false, true, true, false⟩)
        "userdata" =
      some ⟨"data.ext4.win", some "-p --exclude=\"media*\" --exclude=\"*-cache\""⟩ ∧
    dlookup (plan_backup ⟨true, ["modem"], false, false, true, false, true, true, false⟩)
        "modem" =
      some ⟨"modem.tar.gz", none⟩ := by
  constructor
  · have h := ((plan_backup_spec
        ⟨false, ["modem"], false, false, true, false, true, true, false⟩).2.2 rfl).2.2.2.2 rfl
    exact h.trans (by decide)
  · have h := (plan_backup_spec
        ⟨true, ["modem"], false, false, true, false, true, true, false⟩).2.1 rfl "modem"
        (Or.inl (by decide))
    exact h.trans (by decide)

/-! ### C5: inventory construction -/

theorem uevent_fold_warn (ls : List String) :
    ∀ (w : List String) (d : List (String × String)),
      (List.foldl uevent_step (w, d) ls).1 = w ++ (List.foldl uevent_step ([], d) ls).1 := by
  induction ls with
  | nil => intro w d; simp
  | cons l rest ih =>
    intro w d
    simp only [List.foldl_cons]
    by_cases hl : l = ""
    · have h1 : uevent_step (w, d) l = (w, d) := by simp [uevent_step, hl]
      have h2 : uevent_step ([], d) l = ([], d) := by simp [uevent_step, hl]
      rw [h1, h2]
      exact ih w d
    · by_cases hc : strContains l '=' = true
      · have h1 : uevent_step (w, d) l =
            (w, odictInsert d (splitEqOnce l).1 (splitEqOnce l).2) := by
          simp [uevent_step, hl, hc]
        have h2 : uevent_step ([], d) l =
            ([], odictInsert d (splitEqOnce l).1 (splitEqOnce l).2) := by
          simp [uevent_step, hl, hc]
        rw [h1, h2]
        exact ih w _
      · have h1 : uevent_step (w, d) l = (w ++ [l], d) := by simp [uevent_step, hl, hc]
        have h2 : uevent_step ([], d) l = ([l], d) := by simp [uevent_step, hl, hc]
        rw [h1, h2, ih (w ++ [l]) d, ih [l] d]
        simp

theorem uevent_warned_mem (ls : List String) :
    ∀ (w : List String) (d : List (String × String)) (l : String), l ∈ ls → l ≠ "" →
      strContains l '=' = false → l ∈ (List.foldl uevent_step (w, d) ls).1 := by
  induction ls with
  | nil => intro w d l h _ _; simp at h
  | cons a rest ih =>
    intro w d l hmem hne hnc
    simp only [List.foldl_cons]
    rcases List.mem_cons.1 hmem with h | hmem2
    · subst h
      have hstep : uevent_step (w, d) l = (w ++ [l], d) := by simp [uevent_step, hne, hnc]
      rw [hstep, uevent_fold_warn]
      refine List.mem_append.2 (Or.inl (List.mem_append.2 (Or.inr ?_)))
      simp
    · exact ih _ _ l hmem2 hne hnc

theorem uevent_fold_dict (ls : List String) :
    ∀ (w w2 : List String) (d : List (String × String)),
      (List.foldl uevent_step (w, d) ls).2 = (List.foldl uevent_step (w2, d) ls).2 := by
  induction ls with
  | nil => intro w w2 d; rfl
  | cons l rest ih =>
    intro w w2 d
    simp only [List.foldl_cons]
    by_cases hl : l = ""
    · have h1 : uevent_step (w, d) l = (w, d) := by simp [uevent_step, hl]
      have h2 : uevent_step (w2, d) l = (w2, d) := by simp [uevent_step, hl]
      rw [h1, h2]
      exact ih w w2 d
    · by_cases hc : strContains l '=' = true
      · have h1 : uevent_step (w, d) l =
            (w, odictInsert d (splitEqOnce l).1 (splitEqOnce l).2) := by
          simp [uevent_step, hl, hc]
        have h2 : uevent_step (w2, d) l =
            (w2, odictInsert d (splitEqOnce l).1 (splitEqOnce l).2) := by
          simp [uevent_step, hl, hc]
        rw [h1, h2]
        exact ih w w2 _
      · have h1 : uevent_step (w, d) l = (w ++ [l], d) := by simp [uevent_step, hl, hc]
        have h2 : uevent_step (w2, d) l = (w2 ++ [l], d) := by simp [uevent_step, hl, hc]
        rw [h1, h2]
        exact ih _ _ d

theorem uevent_dict_filter (ls : List String) :
    ∀ d : List (String × String),
      (List.foldl uevent_step ([], d) ls).2 =
        (List.foldl uevent_step ([], d)
          (ls.filter (fun l => l ≠ "" ∧ strContains l '=' = true))).2 := by
  induction ls with
  | nil => intro d; rfl
  | cons l rest ih =>
    intro d
    by_cases hl : l = ""
    · have h1 : uevent_step ([], d) l = ([], d) := by simp [uevent_step, hl]
      have h2 : (l :: rest).filter (fun l => l ≠ "" ∧ strContains l '=' = true) =
          rest.filter (fun l => l ≠ "" ∧ strContains l '=' = true) := by
        simp [List.filter_cons, hl]
      rw [h2]
      simp only [List.foldl_cons]
      rw [h1]
      exact ih d
    · by_cases hc : strContains l '=' = true
      · have h1 : uevent_step ([], d) l =
            ([], odictInsert d (splitEqOnce l).1 (splitEqOnce l).2) := by
          simp [uevent_step, hl, hc]
        have h2 : (l :: rest).filter (fun l => l ≠ "" ∧ strContains l '=' = true) =
            l :: rest.filter (fun l => l ≠ "" ∧ strContains l '=' = true) := by
          simp [List.filter_cons, hl, hc]
        rw [h2]
        simp only [List.foldl_cons]
        rw [h1]
        exact ih _
      · have h1 : uevent_step ([], d) l = ([l], d) := by simp [uevent_step, hl, hc]
        have h2 : (l :: rest).filter (fun l => l ≠ "" ∧ strContains l '=' = true) =
            rest.filter (fun l => l ≠ "" ∧ strContains l '=' = true) := by
          simp [List.filter_cons, hl, hc]
        rw [h2]
        simp only [List.foldl_cons]
        rw [h1, uevent_fold_dict rest [l] [] d]
        exact ih d

theorem build_partmap_loop_ok (dev : DeviceFS) (fstab : List (String × (String × String))) :
    ∀ (indices : List Nat) (acc : List (String × PartInfo)),
      (∀ ii ∈ indices, parseOk dev fstab ii = true) →
      ∃ m, build_partmap_loop dev fstab indices acc = (indices, .ok m) ∧
        ((dkeys acc).Nodup → (dkeys m).Nodup) ∧
        (∀ k, k ∈ dkeys m ↔ (k ∈ dkeys acc ∨ k ∈ canonical_names dev fstab indices)) := by
  intro indices
  induction indices with
  | nil =>
    intro acc _
    exact ⟨acc, rfl, id, by simp [canonical_names]⟩
  | cons ii rest ih =>
    intro acc h
    have hok := h ii (List.mem_cons_self ii rest)
    unfold parseOk at hok
    cases hp : parse_partition_record dev fstab ii with
    | error e => rw [hp] at hok; simp at hok
    | ok sp =>
      obtain ⟨m, hm, hnd, hmem⟩ :=
        ih (odictInsert acc sp.1 sp.2) (fun x hx => h x (List.mem_cons_of_mem _ hx))
      refine ⟨m, ?_, ?_, ?_⟩
      · simp [build_partmap_loop, hp, hm]
      · intro hacc
        exact hnd (dkeys_nodup_odictInsert _ _ _ hacc)
      · intro k
        rw [hmem k]
        have hcn : canonical_names dev fstab (ii :: rest) =
            sp.1 :: canonical_names dev fstab rest := by
          simp [canonical_names, hp]
        rw [hcn, dkeys_odictInsert]
        simp only [List.mem_cons]
        tauto

theorem nodup_length_eq_dedup {l1 l2 : List String} (h1 : l1.Nodup)
    (hmem : ∀ k, k ∈ l1 ↔ k ∈ l2) : l1.length = l2.dedup.length := by
  have h2 : l2.dedup.Nodup := l2.nodup_dedup
  have hp : l1.Perm l2.dedup := (List.perm_ext_iff_of_nodup h1 h2).2
    (fun a => by rw [hmem a, List.mem_dedup])
  exact hp.length_eq

/-- C5: when the base attribute record declares a numeric `NPARTS = n` and
every per-index record parses, `build_partmap` queries exactly the indices
`1..n`, once each in strictly ascending order, and yields a map whose size
is the number of distinct canonical names produced; an attribute line
without `=` is collected as a warning and skipped without affecting the
dictionary or aborting; a missing or non-numeric `NPARTS` aborts with no
partition map and no partition queried. -/
theorem build_partmap_inventory_spec (dev : DeviceFS) (n : Nat) (s : String) :
    (dlookup (uevent_dict dev.baseUevent).2 "NPARTS" = some s →
     pyInt s = some (n : Int) →
     (∀ ii ∈ List.range' 1 n, parseOk dev ((fstab_dict dev.fstabText).2) ii = true) →
       (build_partmap dev).1 = List.range' 1 n ∧
       List.Pairwise (· < ·) ((build_partmap dev).1) ∧
       (∀ i, i ∈ (build_partmap dev).1 ↔ (1 ≤ i ∧ i ≤ n)) ∧
       (∃ m, (build_partmap dev).2 = .ok m ∧
         m.length = (canonical_names dev ((fstab_dict dev.fstabText).2)
           (List.range' 1 n)).dedup.length)) ∧
    (dlookup (uevent_dict dev.baseUevent).2 "NPARTS" = none →
       build_partmap dev = ([], .error "KeyError: NPARTS")) ∧
    (dlookup (uevent_dict dev.baseUevent).2 "NPARTS" = some s → pyInt s = none →
       build_partmap dev = ([], .error "ValueError: NPARTS")) ∧
    (∀ (ls : List String) (l : String), l ∈ ls → l ≠ "" → strContains l '=' = false →
       l ∈ (uevent_lines ls).1) ∧
    (∀ ls : List String, (uevent_lines ls).2 =
       (uevent_lines (ls.filter (fun l => l ≠ "" ∧ strContains l '=' = true))).2) := by
  refine ⟨?_, ?_, ?_, ?_, ?_⟩
  · intro h1 h2 h3
    have htn : ((n : Int)).toNat = n := by omega
    have hbp : build_partmap dev =
        build_partmap_loop dev ((fstab_dict dev.fstabText).2) (List.range' 1 n) [] := by
      simp only [build_partmap]
      rw [h1]
      simp only [h2, htn]
    obtain ⟨m, hm, hnd, hmem⟩ :=
      build_partmap_loop_ok dev ((fstab_dict dev.fstabText).2) (List.range' 1 n) [] h3
    rw [hbp, hm]
    refine ⟨rfl, List.pairwise_lt_range' 1 n, ?_, m, rfl, ?_⟩
    · intro i
      rw [List.mem_range'_1]
      omega
    · have hnodup : (dkeys m).Nodup := hnd (by simp [dkeys])
      have hmem2 : ∀ k, k ∈ dkeys m ↔
          k ∈ canonical_names dev ((fstab_dict dev.fstabText).2) (List.range' 1 n) := by
        intro k
        rw [hmem k]
        simp [dkeys]
      have hlen : m.length = (dkeys m).length := by simp [dkeys]
      rw [hlen]
      exact nodup_length_eq_dedup hnodup hmem2
  · intro h1
    simp only [build_partmap]
    rw [h1]
  · intro h1 h2
    simp only [build_partmap]
    rw [h1]
    simp only [h2]
  · intro ls l hmem hne hnc
    exact uevent_warned_mem ls [] [] l hmem hne hnc
  · intro ls
    exact uevent_dict_filter ls []

/-- C5 witness: a two-partition device with one malformed attribute line in
the base record. -/
theorem build_partmap_inventory_witness :
    (build_partmap
      ⟨"/dev/block/mmcblk0p1 /boot ext4\n",
       "NPARTS=2\nnoise\n",
       fun i => if i = 1 then "DEVNAME=mmcblk0p1\nPARTN=1\nPARTNAME=boot\n"
         else "DEVNAME=mmcblk0p2\nPARTN=2\nPARTNAME=system\n",
       fun _ => "1024\n"⟩).1 = List.range' 1 2 :=
  ((build_partmap_inventory_spec
      ⟨"/dev/block/mmcblk0p1 /boot ext4\n",
       "NPARTS=2\nnoise\n",
       fun i => if i = 1 then "DEVNAME=mmcblk0p1\nPARTN=1\nPARTNAME=boot\n"
         else "DEVNAME=mmcblk0p2\nPARTN=2\nPARTNAME=system\n",
       fun _ => "1024\n"⟩ 2 "2").1 (by decide) (by decide) (by decide)).1

end Tetherback
